import Mathlib

/-!
Verification of the tick-indexed replay engine (`omp-fs-replay`).

The development shallowly embeds the two core classes of the repository:

* `Recorder` from `src/recoder.ts` (the state-machine variant, using
  `RecorderState`, `pausedData`, `segmentIndex`, `currentSegment`);
* `Replayer` from `src/replayer.ts` (the segment-cache variant, using
  `ReplayerState`, `loadedSegments`, `getTickData`, `seek`,
  `processTickAndScheduleNext`).

JavaScript `Map<number, T>` values are embedded as insertion-ordered
association lists with unique keys (`mapSet`, `mapGet`, `mapSize`).
JavaScript object keys produced by `Object.fromEntries` on integer-like
keys enumerate in ascending numeric order; we embed that object form as
the key-sorted association list (`toObject`).  The decimal string keys of
the on-disk object are embedded as base-10 digit lists
(`jsKeyEncode` / `jsKeyDecode`), which are in bijection with canonical
decimal strings.  The external `msgpackr` codec is modelled as the
identity on the structured record it serialises (its documented
contract), so the round-trip content of `segment_k.dat` is the structured
record itself.

Wall-clock readings (`performance.now()`) are passed to the operations as
explicit rational parameters.
-/

namespace Replay

instance {e a : Type} [DecidableEq e] [DecidableEq a] : DecidableEq (Except e a) :=
  fun x y =>
    match x, y with
    | .ok u, .ok v =>
      if h : u = v then isTrue (by rw [h])
      else isFalse (by intro hh; injection hh; contradiction)
    | .error u, .error v =>
      if h : u = v then isTrue (by rw [h])
      else isFalse (by intro hh; injection hh; contradiction)
    | .ok _, .error _ => isFalse (by intro hh; cases hh)
    | .error _, .ok _ => isFalse (by intro hh; cases hh)

/-- A JavaScript value, as far as truthiness is concerned.  The replayer
is generic in the payload type `T` but tests payloads with `if (!data)`,
so the embedding fixes a representative universe of JS values with their
falsiness. -/
inductive JsVal where
  | vNull : JsVal
  | vBool : Bool → JsVal
  | vNum : Int → JsVal
  | vStr : String → JsVal
  deriving DecidableEq, Repr

/-- JavaScript falsiness: `null`, `false`, `0` and `""` are falsy. -/
def JsVal.falsy : JsVal → Bool
  | .vNull => true
  | .vBool b => !b
  | .vNum n => n == 0
  | .vStr s => s == ""

/-! ### JS `Map<number, T>` as an insertion-ordered association list -/

/-- Lookup in a JS `Map` (`map.get(k)`). -/
def mapGet {T : Type} (m : List (Nat × T)) (k : Nat) : Option T :=
  (m.find? (fun p => p.1 = k)).map Prod.snd

/-- `map.set(k, v)`: update in place if the key exists, else append. -/
def mapSet {T : Type} (m : List (Nat × T)) (k : Nat) (v : T) : List (Nat × T) :=
  if m.any (fun p => p.1 = k) then
    m.map (fun p => if p.1 = k then (k, v) else p)
  else
    m ++ [(k, v)]

/-- `map.size` (keys are kept unique by `mapSet`). -/
def mapSize {T : Type} (m : List (Nat × T)) : Nat := m.length

/-- `Array.from(map.keys())`: the keys in insertion order. -/
def mapKeys {T : Type} (m : List (Nat × T)) : List Nat := m.map Prod.fst

/-- The JS object obtained by `Object.fromEntries(map)` for integer-like
keys: properties enumerate in ascending numeric key order. -/
def toObject {T : Type} (m : List (Nat × T)) : List (Nat × T) :=
  m.insertionSort (fun a b => a.1 ≤ b.1)

/-! ### Recorder (`src/recoder.ts`, state-machine variant) -/

/-- `RecorderState` from `types.ts`. -/
inductive RecorderState where
  | Idle : RecorderState
  | Recording : RecorderState
  | Paused : RecorderState
  deriving DecidableEq, Repr

/-- The `header.json` document (`ReplayMeta` from `types.ts`).
`totalDuration` is declared in the interface but `Recorder.start` writes
a JSON object without it, and nothing else ever assigns it, so it is
embedded as an `Option` that the recorder leaves at `none`. -/
structure ReplayMeta where
  createdAt : String
  tickRate : Nat
  segmentSize : Nat
  totalTicks : Nat
  totalDuration : Option Nat
  deriving DecidableEq, Repr

/-- The structured record serialised into `segment_k.dat` by
`flushSegment` (`{ firstTick, lastTick, data: Object.fromEntries(map) }`).
`data` is the JS-object form: entries in ascending key order. -/
structure SegmentData (T : Type) where
  firstTick : Nat
  lastTick : Nat
  data : List (Nat × T)
  deriving DecidableEq

/-- The full state of a `Recorder` instance together with the files it
has written to its data directory. -/
structure RecState (T : Type) where
  segmentSize : Nat
  tickRate : Nat
  state : RecorderState
  currentSegment : List (Nat × T)
  segmentIndex : Nat
  pausedLastTick : Option Nat
  files : List (Nat × SegmentData T)
  header : Option ReplayMeta
  deriving DecidableEq

/-- A freshly constructed recorder (`new Recorder(dataDir, config)`):
`segmentSize`/`tickRate` resolved from config or defaults, everything
else at its field initialiser. -/
def RecState.mk0 (T : Type) (segmentSize tickRate : Nat) : RecState T :=
  { segmentSize := segmentSize, tickRate := tickRate, state := .Idle,
    currentSegment := [], segmentIndex := 0, pausedLastTick := none,
    files := [], header := none }

/-- `Recorder.flushSegment`: sort the pending keys; if none, no-op; else
write `{firstTick, lastTick, data}` as `segment_{segmentIndex}.dat`,
clear the pending buffer and increment `segmentIndex`. -/
def flushSegment {T : Type} (r : RecState T) : RecState T :=
  match (mapKeys r.currentSegment).insertionSort (· ≤ ·) with
  | [] => r
  | t0 :: rest =>
    { r with
      files := r.files ++
        [(r.segmentIndex,
          { firstTick := t0
            lastTick := (t0 :: rest).getLastD t0
            data := toObject r.currentSegment })]
      currentSegment := []
      segmentIndex := r.segmentIndex + 1 }

/-- `Recorder.start`: requires `Idle`; writes the initial header (no
`totalDuration` key) and resets the recording fields. -/
def Recorder.start {T : Type} (r : RecState T) (createdAt : String) :
    Except String (RecState T) :=
  if r.state ≠ .Idle then .error "Cannot start recording" else
  .ok { r with
        header := some { createdAt := createdAt, tickRate := r.tickRate,
                         segmentSize := r.segmentSize, totalTicks := 0,
                         totalDuration := none },
        state := .Recording, segmentIndex := 0, currentSegment := [],
        pausedLastTick := none }

/-- The guard `pausedData.lastTick !== undefined && tick <= lastTick`
in `Recorder.record`. -/
def invalidSeq (lastTick : Option Nat) (tick : Nat) : Bool :=
  match lastTick with
  | none => false
  | some lt => tick ≤ lt

/-- `Recorder.record(tick, data)`: requires `Recording`; rejects
`tick <= pausedData.lastTick` when that field is defined; inserts at the
caller-supplied key; flushes when the buffer reaches `segmentSize`. -/
def Recorder.record {T : Type} (r : RecState T) (tick : Nat) (data : T) :
    Except String (RecState T) :=
  if r.state ≠ .Recording then .error "Cannot record" else
  if invalidSeq r.pausedLastTick tick then .error "Invalid tick sequence" else
  if r.segmentSize ≤ mapSize (mapSet r.currentSegment tick data) then
    .ok (flushSegment { r with currentSegment := mapSet r.currentSegment tick data })
  else .ok { r with currentSegment := mapSet r.currentSegment tick data }

/-- `Recorder.pause`: requires `Recording`; flushes, then captures
`Array.from(currentSegment.keys()).pop()` — read from the buffer that
the flush has just cleared — into `pausedData.lastTick`. -/
def Recorder.pause {T : Type} (r : RecState T) : Except String (RecState T) :=
  if r.state ≠ .Recording then .error "Cannot pause recording" else
  .ok { flushSegment r with
        pausedLastTick := (mapKeys (flushSegment r).currentSegment).getLast?,
        state := .Paused }

/-- `Recorder.resume`: requires `Paused`; sets the state back to
`Recording` (and touches nothing else). -/
def Recorder.resume {T : Type} (r : RecState T) : Except String (RecState T) :=
  if r.state ≠ .Paused then .error "Cannot resume recording" else
  .ok { r with state := .Recording }

/-- `Recorder.stop`: requires non-`Idle`; flushes, re-reads the header,
sets `totalTicks := segmentIndex * segmentSize + currentSegment.size`
(evaluated after the flush), persists and returns the metadata. -/
def Recorder.stop {T : Type} (r : RecState T) :
    Except String (ReplayMeta × RecState T) :=
  if r.state = .Idle then .error "Cannot stop recording when not started" else
  match (flushSegment r).header with
  | none => .error "ENOENT: header.json"
  | some h =>
    .ok ({ h with totalTicks := (flushSegment r).segmentIndex *
                    (flushSegment r).segmentSize +
                    mapSize (flushSegment r).currentSegment },
         { flushSegment r with
           header := some { h with totalTicks := (flushSegment r).segmentIndex *
                              (flushSegment r).segmentSize +
                              mapSize (flushSegment r).currentSegment },
           state := .Idle })

/-- Modelled from the spec: the wall-clock tick derivation that §4.D
prescribes for the recorder (`currentTick() = max(1, ⌊(monotonicNow() −
startTime − pausedDuration) × tickRate / 1000⌋)` while `Recording`, `0`
otherwise).  The source `Recorder` has no such function and holds no
clock state; this definition exists only to compare the claim against
the code. -/
def specCurrentTick (state : RecorderState)
    (now startTime pausedDuration tickRate : Nat) : Nat :=
  if state = .Recording then
    max 1 ((now - startTime - pausedDuration) * tickRate / 1000)
  else 0

/-! ### The segment codec

`flushSegment` hands `msgpackr`'s `pack` a record whose `data` object has
decimal-string keys (numeric `Map` keys stringified by
`Object.fromEntries`); `loadSegment` runs `unpack` and rebuilds the map
with `parseInt` on each key.  `pack`/`unpack` is the external codec
library, modelled as the identity on the structured record; the decimal
strings are modelled as base-10 digit lists (little-endian, no leading
zeros), which the repository's own key conversion produces and consumes. -/

/-- Little-endian base-10 digits of `n`, by fuel (`fuel > n` suffices). -/
def digitsAux : Nat → Nat → List Nat
  | 0, _ => []
  | fuel + 1, n => if n = 0 then [] else n % 10 :: digitsAux fuel (n / 10)

/-- The decimal-string form of a numeric JS object key. -/
def jsKeyEncode (n : Nat) : List Nat := digitsAux (n + 1) n

/-- `parseInt` on a decimal-string key. -/
def jsKeyDecode (ds : List Nat) : Nat := ds.foldr (fun d acc => d + 10 * acc) 0

/-- The serialised form of `segment_k.dat`: the structured record with
its object keys in decimal-string (digit-list) form. -/
structure PackedSegment (T : Type) where
  firstTick : Nat
  lastTick : Nat
  entries : List (List Nat × T)
  deriving DecidableEq

/-- `pack ∘ Object.fromEntries` on the recorder side: keys stringified. -/
def encodeSegment {T : Type} (s : SegmentData T) : PackedSegment T :=
  { firstTick := s.firstTick, lastTick := s.lastTick,
    entries := s.data.map (fun p => (jsKeyEncode p.1, p.2)) }

/-- The replayer's `Object.entries(data).map(([k, v]) => [parseInt(k), v])`. -/
def decodeSegmentMap {T : Type} (p : PackedSegment T) : List (Nat × T) :=
  p.entries.map (fun q => (jsKeyDecode q.1, q.2))

/-- Decoding the whole record (`unpack` plus the key conversion). -/
def decodeSegment {T : Type} (p : PackedSegment T) : SegmentData T :=
  { firstTick := p.firstTick, lastTick := p.lastTick,
    data := decodeSegmentMap p }

/-! ### Replayer (`src/replayer.ts`) -/

/-- `ReplayerState` from `types.ts`. -/
inductive ReplayerState where
  | Idle : ReplayerState
  | Playing : ReplayerState
  | Paused : ReplayerState
  deriving DecidableEq, Repr

/-- `TickMeta` from `types.ts`; `time = (tick / tickRate) * 1000`. -/
structure TickMeta where
  tick : Nat
  time : Rat
  segmentIndex : Nat
  deriving DecidableEq, Repr

/-- `meta.time` for a tick. -/
def tickTime (tick tickRate : Nat) : Rat := ((tick : Rat) / (tickRate : Rat)) * 1000

/-- An observable callback invocation of the replayer. -/
inductive ReplayEvent where
  | tickEv : Nat → ReplayEvent
  | endEv : ReplayEvent
  deriving DecidableEq, Repr

/-- The state of a `Replayer` instance after `init()`, together with the
segment files available in its data directory (`disk`).  Wall-clock
readings are passed explicitly to the operations. -/
structure RepState where
  meta : ReplayMeta
  disk : List (Nat × PackedSegment JsVal)
  loadedSegments : List (Nat × List (Nat × JsVal))
  currentTick : Nat
  state : ReplayerState
  lastPlayedTickMeta : Option TickMeta
  currentSpeed : Rat
  playStartTime : Rat
  pausedDuration : Rat
  pauseStartTime : Rat
  deriving DecidableEq

/-- `Replayer.getCurrentTick`. -/
def getCurrentTick (r : RepState) : Nat := r.currentTick

/-- `Replayer.getExpectedTick`: `currentTick` unless `Playing`, else
`⌊(now − playStartTime − pausedDuration) × tickRate × speed / 1000⌋`. -/
def getExpectedTick (r : RepState) (now : Rat) : Int :=
  if r.state ≠ .Playing then (r.currentTick : Int)
  else ⌊(now - r.playStartTime - r.pausedDuration) * (r.meta.tickRate : Rat)
         * r.currentSpeed / 1000⌋

/-- `Replayer.loadSegment`: cache hit returns unchanged; otherwise read
`segment_{index}.dat` (errors when the file is absent), decode, and add
to `loadedSegments`. -/
def loadSegment (r : RepState) (index : Nat) : Except String RepState :=
  if r.loadedSegments.any (fun p => p.1 = index) then .ok r else
  match mapGet r.disk index with
  | none => .error "ENOENT: segment"
  | some packed =>
    .ok { r with loadedSegments :=
            r.loadedSegments ++ [(index, decodeSegmentMap packed)] }

/-- `Replayer.getTickData`: `null` when the segment is not in the cache,
when the tick is missing from the cached segment, or — via `if (!data)`
— when the stored payload is falsy. -/
def getTickData (r : RepState) (tick : Nat) : Option (JsVal × TickMeta) :=
  match mapGet r.loadedSegments (tick / r.meta.segmentSize) with
  | none => none
  | some segment =>
    match mapGet segment tick with
    | none => none
    | some v =>
      if v.falsy then none
      else some (v, { tick := tick, time := tickTime tick r.meta.tickRate,
                      segmentIndex := tick / r.meta.segmentSize })

/-- `Replayer.stop`: cancel the timer and go `Idle`. -/
def Replayer.stop (r : RepState) : RepState := { r with state := .Idle }

/-- The chain `processTickAndScheduleNext` → timer → `currentTick++` →
`processTickAndScheduleNext` → …, for executions in which the
drift-correction guard `expectedTick() > currentTick` never fires (then
`syncToRealTime` is a no-op and neither the cache nor the clock fields
change during the loop).  Returns the emitted events and the final
state; with `fuel` exhausted the loop is still `Playing`. -/
def runReplay (r : RepState) : Nat → Nat → List ReplayEvent × ReplayerState
  | _, 0 => ([], .Playing)
  | tick, fuel + 1 =>
    match getTickData r tick with
    | none => ([.endEv], .Idle)
    | some _ =>
      let rest := runReplay r (tick + 1) fuel
      (.tickEv tick :: rest.1, rest.2)

/-- `Replayer.play`: rejects a double `play`; captures
`playStartTime := monotonicNow()` and resets `pausedDuration := 0`;
loads the segment containing `currentTick` (propagating a missing-file
error).  The tick-dispatch loop it then enters is `runReplay`, which
never touches the clock fields. -/
def play (r : RepState) (now : Rat) : Except String RepState :=
  if r.state = .Playing then .error "Already playing" else
  loadSegment { r with state := .Playing, playStartTime := now,
                       pausedDuration := 0 }
    (r.currentTick / r.meta.segmentSize)

/-- `play` followed by the dispatch loop from `currentTick`. -/
def playAndRun (r : RepState) (now : Rat) (fuel : Nat) :
    Except String (List ReplayEvent × ReplayerState) :=
  (play r now).map (fun r1 => runReplay r1 r1.currentTick fuel)

/-- `Replayer.pause`: requires `Playing`; records `pauseStartTime`. -/
def Replayer.pause (r : RepState) (now : Rat) : Except String RepState :=
  if r.state ≠ .Playing then .error "Not playing" else
  .ok { r with state := .Paused, pauseStartTime := now }

/-- `Replayer.resume`: requires `Paused`; folds `now − pauseStartTime`
into `pausedDuration` and then re-enters `play()` — which resets
`playStartTime` and `pausedDuration`. -/
def Replayer.resume (r : RepState) (now : Rat) : Except String RepState :=
  if r.state ≠ .Paused then .error "Not paused" else
  play { r with pausedDuration := r.pausedDuration + (now - r.pauseStartTime) }
    now

/-- `Replayer.seek(tick)`: `stop()`; clamp
`currentTick := max(0, min(tick, totalTicks − 1))`; load the containing
segment (a missing file surfaces as the `Bool` error flag, with
`currentTick` already updated); deliver a single `onTick` when the
payload at the clamped tick is present and truthy. -/
def seek (r : RepState) (tick : Int) : RepState × List ReplayEvent × Bool :=
  match loadSegment
      { r with state := ReplayerState.Idle,
               currentTick := (max 0 (min tick ((r.meta.totalTicks : Int) - 1))).toNat }
      ((max 0 (min tick ((r.meta.totalTicks : Int) - 1))).toNat / r.meta.segmentSize) with
  | .error _ =>
    ({ r with state := ReplayerState.Idle,
              currentTick := (max 0 (min tick ((r.meta.totalTicks : Int) - 1))).toNat },
     [], true)
  | .ok r2 =>
    match getTickData r2 ((max 0 (min tick ((r.meta.totalTicks : Int) - 1))).toNat) with
    | none => (r2, [], false)
    | some (_, m) =>
      ({ r2 with lastPlayedTickMeta := some m },
       [.tickEv ((max 0 (min tick ((r.meta.totalTicks : Int) - 1))).toNat)], false)

/-- `Replayer.seekToTime(time)`:
`seek(Math.floor((time * tickRate) / 1000))`. -/
def seekToTime (r : RepState) (time : Rat) : RepState × List ReplayEvent × Bool :=
  seek r ⌊time * (r.meta.tickRate : Rat) / 1000⌋

/-- Modelled from the spec: `clamp(t, 0, totalTicks−1)` as §8.4 words it. -/
def specClamp (t lo hi : Int) : Int := max lo (min t hi)

/-- Whether tick `t` is present (and truthy) in the recording on disk —
the segment file exists and contains a payload for `t`. -/
def recordingHasTick (disk : List (Nat × PackedSegment JsVal))
    (segmentSize t : Nat) : Bool :=
  match mapGet disk (t / segmentSize) with
  | none => false
  | some p =>
    match mapGet (decodeSegmentMap p) t with
    | none => false
    | some v => !v.falsy

/-! ### Basic lemmas about the map embedding and the recorder -/

theorem mapGet_nil {T : Type} (k : Nat) : mapGet ([] : List (Nat × T)) k = none := rfl

theorem mapGet_cons {T : Type} (a : Nat × T) (m : List (Nat × T)) (j : Nat) :
    mapGet (a :: m) j = if a.1 = j then some a.2 else mapGet m j := by
  by_cases h : a.1 = j <;> simp [mapGet, List.find?_cons, h]

theorem mapGet_append {T : Type} (m₁ m₂ : List (Nat × T)) (j : Nat) :
    mapGet (m₁ ++ m₂) j =
      match mapGet m₁ j with
      | some v => some v
      | none => mapGet m₂ j := by
  induction m₁ with
  | nil => simp [mapGet_nil]
  | cons a m ih =>
    rw [List.cons_append, mapGet_cons, mapGet_cons]
    by_cases h : a.1 = j <;> simp [h, ih]

theorem mapGet_mapOverwrite {T : Type} (m : List (Nat × T)) (k : Nat) (v : T)
    (p0 : Nat × T) (hp0 : p0 ∈ m) (hk : p0.1 = k) :
    mapGet (m.map (fun p => if p.1 = k then (k, v) else p)) k = some v := by
  induction m with
  | nil => cases hp0
  | cons a m ih =>
    rw [List.map_cons, mapGet_cons]
    by_cases ha : a.1 = k
    · simp [ha]
    · simp only [if_neg ha]
      rcases List.mem_cons.mp hp0 with rfl | hmem
      · exact absurd hk ha
      · exact ih hmem

theorem mapGet_eq_none_of_not_mem {T : Type} (m : List (Nat × T)) (k : Nat)
    (h : ∀ p ∈ m, p.1 ≠ k) : mapGet m k = none := by
  induction m with
  | nil => rfl
  | cons a m ih =>
    rw [mapGet_cons, if_neg (h a (List.mem_cons_self a m))]
    exact ih (fun p hp => h p (List.mem_cons_of_mem a hp))

theorem mapGet_mapSet_self {T : Type} (m : List (Nat × T)) (k : Nat) (v : T) :
    mapGet (mapSet m k v) k = some v := by
  unfold mapSet
  by_cases h : (m.any fun p => p.1 = k) = true
  · rw [if_pos h]
    rw [List.any_eq_true] at h
    obtain ⟨p0, hp0, hk⟩ := h
    exact mapGet_mapOverwrite m k v p0 hp0 (by simpa using hk)
  · rw [if_neg h, mapGet_append]
    have hnone : mapGet m k = none := by
      apply mapGet_eq_none_of_not_mem
      intro p hp hpk
      exact h (List.any_eq_true.mpr ⟨p, hp, by simpa using hpk⟩)
    simp [hnone, mapGet_cons]

theorem mapSize_mapSet_le {T : Type} (m : List (Nat × T)) (k : Nat) (v : T) :
    mapSize (mapSet m k v) ≤ mapSize m + 1 := by
  unfold mapSet mapSize
  by_cases h : m.any (fun p => p.1 = k) <;> simp [h]

/-- After any `flushSegment` the pending buffer is empty — the flush
clears it, and if it was already empty it stays so. -/
theorem flushSegment_currentSegment {T : Type} (r : RecState T) :
    (flushSegment r).currentSegment = [] := by
  unfold flushSegment
  cases h : (mapKeys r.currentSegment).insertionSort (· ≤ ·) with
  | nil =>
    simp only
    have := List.perm_insertionSort (α := Nat) (· ≤ ·) (mapKeys r.currentSegment)
    rw [h] at this
    have h2 : mapKeys r.currentSegment = [] := this.symm.eq_nil
    unfold mapKeys at h2
    exact List.map_eq_nil_iff.mp h2
  | cons t0 rest => simp

theorem flushSegment_segmentSize {T : Type} (r : RecState T) :
    (flushSegment r).segmentSize = r.segmentSize := by
  unfold flushSegment
  cases (mapKeys r.currentSegment).insertionSort (· ≤ ·) <;> simp

theorem flushSegment_header {T : Type} (r : RecState T) :
    (flushSegment r).header = r.header := by
  unfold flushSegment
  cases (mapKeys r.currentSegment).insertionSort (· ≤ ·) <;> simp

theorem flushSegment_state {T : Type} (r : RecState T) :
    (flushSegment r).state = r.state := by
  unfold flushSegment
  cases (mapKeys r.currentSegment).insertionSort (· ≤ ·) <;> simp

theorem flushSegment_pausedLastTick {T : Type} (r : RecState T) :
    (flushSegment r).pausedLastTick = r.pausedLastTick := by
  unfold flushSegment
  cases (mapKeys r.currentSegment).insertionSort (· ≤ ·) <;> simp

/-! ### Key round-trip -/

theorem digitsAux_decode (fuel : Nat) : ∀ n : Nat, n < fuel →
    jsKeyDecode (digitsAux fuel n) = n := by
  induction fuel with
  | zero => intro n h; omega
  | succ fuel ih =>
    intro n h
    unfold digitsAux
    by_cases h0 : n = 0
    · simp [h0, jsKeyDecode]
    · simp only [h0, if_false]
      have hlt : n / 10 < fuel := by
        have := Nat.div_lt_self (Nat.pos_of_ne_zero h0) (by norm_num : 1 < 10)
        omega
      show (n % 10) + 10 * jsKeyDecode (digitsAux fuel (n / 10)) = n
      rw [ih (n / 10) hlt]
      exact Nat.mod_add_div n 10

theorem jsKey_roundtrip (n : Nat) : jsKeyDecode (jsKeyEncode n) = n :=
  digitsAux_decode (n + 1) n (Nat.lt_succ_self n)

/-! ### Replayer lemmas -/

/-- `loadSegment` only ever touches `loadedSegments`, and only by
appending: every other field is preserved and the cache grows. -/
theorem loadSegment_fields (r : RepState) (i : Nat) (r' : RepState)
    (h : loadSegment r i = .ok r') :
    r'.currentTick = r.currentTick ∧ r'.meta = r.meta ∧ r'.state = r.state ∧
    r'.currentSpeed = r.currentSpeed ∧ r'.playStartTime = r.playStartTime ∧
    r'.pausedDuration = r.pausedDuration ∧
    r'.pauseStartTime = r.pauseStartTime ∧
    (∀ p ∈ r.loadedSegments, p ∈ r'.loadedSegments) := by
  unfold loadSegment at h
  by_cases hc : (r.loadedSegments.any fun p => p.1 = i) = true
  · rw [if_pos hc] at h
    simp only [Except.ok.injEq] at h
    subst h
    exact ⟨rfl, rfl, rfl, rfl, rfl, rfl, rfl, fun p hp => hp⟩
  · rw [if_neg hc] at h
    cases hd : mapGet r.disk i with
    | none => rw [hd] at h; cases h
    | some packed =>
      rw [hd] at h
      simp only [Except.ok.injEq] at h
      subst h
      exact ⟨rfl, rfl, rfl, rfl, rfl, rfl, rfl,
        fun p hp => List.mem_append_left _ hp⟩

/-- The clamped tick assignment in `seek` lands in `currentTick`
regardless of whether the segment load or the payload fetch succeeds. -/
theorem seek_currentTick (r : RepState) (t : Int) :
    (seek r t).1.currentTick =
      (max 0 (min t ((r.meta.totalTicks : Int) - 1))).toNat := by
  unfold seek
  split
  · rfl
  · rename_i r2 hload
    have h2 := (loadSegment_fields _ _ _ hload).1
    split
    · simpa using h2
    · simpa using h2

/-! ### C6 — the codec round-trip -/

/-- **C6** (confirmed): decoding an encoded segment record — as
`Replayer.loadSegment` does with `Recorder.flushSegment` output —
recovers the record exactly: the integer tick keys come back through the
decimal-key round-trip unchanged, and so does the tick→payload mapping. -/
theorem decode_encode_segment {T : Type} (s : SegmentData T) :
    decodeSegment (encodeSegment s) = s := by
  cases s with
  | mk f l d =>
    simp only [decodeSegment, encodeSegment, decodeSegmentMap, List.map_map,
      SegmentData.mk.injEq, true_and]
    conv_rhs => rw [← List.map_id d]
    apply List.map_congr_left
    intro p _
    simp [Function.comp, jsKey_roundtrip]

/-! ### C7 — seek clamping and seekToTime -/

/-- **C7** (confirmed): after `seek(t)` the observer `getCurrentTick()`
returns `t` clamped to `[0, totalTicks − 1]` (the spec's
`clamp(t, 0, totalTicks−1)`), whether or not the segment load or the
payload fetch succeeds; and `seekToTime(ms)` is exactly
`seek(⌊ms × tickRate / 1000⌋)`. -/
theorem seek_clamp_correct (r : RepState) (t : Int) (time : Rat) :
    getCurrentTick (seek r t).1 =
      (specClamp t 0 ((r.meta.totalTicks : Int) - 1)).toNat
    ∧ seekToTime r time = seek r ⌊time * (r.meta.tickRate : Rat) / 1000⌋ := by
  refine ⟨?_, rfl⟩
  rw [getCurrentTick, seek_currentTick]
  rfl

/-! ### Concrete fixtures -/

/-- The header `start` writes for `segmentSize = 1000`, `tickRate = 30`. -/
def hdr0 : ReplayMeta :=
  { createdAt := "2024-01-01", tickRate := 30, segmentSize := 1000,
    totalTicks := 0, totalDuration := none }

/-- A recorder mid-`Recording` with an empty pending buffer. -/
def recRecording : RecState JsVal :=
  { segmentSize := 1000, tickRate := 30, state := .Recording,
    currentSegment := [], segmentIndex := 0, pausedLastTick := none,
    files := [], header := some hdr0 }

/-- A recorder mid-`Recording` with two buffered ticks. -/
def recBuffered : RecState JsVal :=
  { recRecording with currentSegment := [(1, .vNum 2), (2, .vNum 4)] }

/-! ### C1 — where `record` gets its tick from -/

/-- **C1 counterexample**: with the recorder `Recording` and the wall
clock read at `now = 1000`, `startTime = 0`, `pausedDuration = 0`,
`tickRate = 30`, the spec's `currentTick()` is `30`; yet
`record(5, data)` stores the payload under the caller-supplied tick `5`.
The source `Recorder.record(tick, data)` takes the tick from the caller
and performs no wall-clock derivation. -/
theorem record_wall_clock_cex :
    (Recorder.record recRecording 5 (.vNum 1)).map
        (fun r' => mapKeys r'.currentSegment) = .ok [5]
    ∧ specCurrentTick .Recording 1000 0 0 30 = 30
    ∧ (5 : Nat) ≠ 30 := by decide

/-- **C1 corrected**: `record(tick, data)` stores the payload under
exactly the caller-supplied `tick` argument (here with no flush
triggered, so the entry is visible in the pending buffer); no tick is
derived from any clock — the recorder holds no clock state at all. -/
theorem record_stores_caller_tick {T : Type} (r : RecState T) (t : Nat) (d : T)
    (hrec : r.state = .Recording) (hlast : r.pausedLastTick = none)
    (hroom : mapSize r.currentSegment + 1 < r.segmentSize) :
    ∃ r', Recorder.record r t d = .ok r' ∧
      mapGet r'.currentSegment t = some d := by
  have hsz : mapSize (mapSet r.currentSegment t d) < r.segmentSize :=
    lt_of_le_of_lt (mapSize_mapSet_le r.currentSegment t d) hroom
  refine ⟨{ r with currentSegment := mapSet r.currentSegment t d }, ?_, ?_⟩
  · unfold Recorder.record
    rw [if_neg (by simp [hrec]), hlast]
    rw [if_neg (by simp [invalidSeq])]
    rw [if_neg (not_le.mpr hsz)]
  · exact mapGet_mapSet_self r.currentSegment t d

/-- Witness for `record_stores_caller_tick` at a concrete recorder. -/
theorem record_stores_caller_tick_w :
    ∃ r', Recorder.record recRecording 7 (JsVal.vNum 3) = .ok r' ∧
      mapGet r'.currentSegment 7 = some (JsVal.vNum 3) :=
  record_stores_caller_tick recRecording 7 (JsVal.vNum 3) rfl rfl (by decide)

/-! ### C2 — the metadata written by `stop` -/

/-- A five-tick recording session: `start`, `record` of ticks 1…5,
`stop` (with `segmentSize = 1000`). -/
def recRun2 : Except String (ReplayMeta × RecState JsVal) := do
  let r1 ← Recorder.start (RecState.mk0 JsVal 1000 30) "2024-01-01"
  let r2 ← Recorder.record r1 1 (.vNum 2)
  let r3 ← Recorder.record r2 2 (.vNum 4)
  let r4 ← Recorder.record r3 3 (.vNum 6)
  let r5 ← Recorder.record r4 4 (.vNum 8)
  let r6 ← Recorder.record r5 5 (.vNum 10)
  Recorder.stop r6

/-- **C2 counterexample**: after recording ticks 1…5 and stopping, the
persisted `totalTicks` is `1000` (one flushed segment × `segmentSize`),
not `5 + 1` (one plus the highest recorded tick); and `totalDuration`
is not written at all (it stays absent), so it does not equal any
`monotonicNow() − startTime`. -/
theorem stop_totalTicks_cex :
    recRun2.map (fun p => (p.1.totalTicks, p.1.totalDuration)) =
      .ok (1000, none)
    ∧ (1000 : Nat) ≠ 5 + 1 := by decide

/-- **C2 corrected**: `stop` sets
`totalTicks = segmentIndex × segmentSize + |pending|` evaluated after
the final flush — which is `(number of flushed segments) × segmentSize`,
since the flush always empties the pending buffer — and leaves
`totalDuration` exactly as it was in the header (`start` writes no
`totalDuration`, so for a normal session it remains absent). -/
theorem stop_meta_formula {T : Type} (r : RecState T) (h : ReplayMeta)
    (hstate : r.state ≠ .Idle) (hheader : r.header = some h) :
    ∃ meta r', Recorder.stop r = .ok (meta, r') ∧
      meta.totalTicks = (flushSegment r).segmentIndex * r.segmentSize ∧
      meta.totalDuration = h.totalDuration ∧
      r'.state = .Idle ∧ r'.header = some meta := by
  unfold Recorder.stop
  rw [if_neg hstate]
  have hh : (flushSegment r).header = some h := by
    rw [flushSegment_header, hheader]
  rw [hh]
  refine ⟨_, _, rfl, ?_, rfl, rfl, rfl⟩
  show (flushSegment r).segmentIndex * (flushSegment r).segmentSize +
      mapSize (flushSegment r).currentSegment =
    (flushSegment r).segmentIndex * r.segmentSize
  rw [flushSegment_segmentSize, flushSegment_currentSegment]
  simp [mapSize]

/-- Witness for `stop_meta_formula` at a concrete recorder. -/
theorem stop_meta_formula_w :
    ∃ meta r', Recorder.stop recRecording = .ok (meta, r') ∧
      meta.totalTicks = (flushSegment recRecording).segmentIndex * 1000 ∧
      meta.totalDuration = hdr0.totalDuration ∧
      r'.state = .Idle ∧ r'.header = some meta :=
  stop_meta_formula recRecording hdr0 (by decide) rfl

/-- In state `Recording` with an undefined `pausedData.lastTick`,
`record` always succeeds (flushing or not). -/
theorem record_ok {T : Type} (r : RecState T) (t : Nat) (d : T)
    (hrec : r.state = .Recording) (hlast : r.pausedLastTick = none) :
    ∃ r', Recorder.record r t d = .ok r' := by
  unfold Recorder.record
  rw [if_neg (by simp [hrec]), hlast]
  rw [if_neg (by simp [invalidSeq])]
  by_cases hc : r.segmentSize ≤ mapSize (mapSet r.currentSegment t d)
  · exact ⟨_, by rw [if_pos hc]⟩
  · exact ⟨_, by rw [if_neg hc]⟩

/-! ### C9 — the pause/record tick-sequence guard -/

/-- **C9** (confirmed): `pause` flushes (which clears the buffer) and
only then reads `Array.from(currentSegment.keys()).pop()`, so the
captured `pausedData.lastTick` is always `undefined`; consequently the
`Invalid tick sequence` branch of `record` is unreachable after a
pause–resume cycle, and `record` accepts any tick — including ticks at
or before those already flushed. -/
theorem pause_lastTick_undefined {T : Type} (r : RecState T) (t : Nat) (d : T)
    (hrec : r.state = .Recording) (_hne : r.currentSegment ≠ []) :
    ∃ r' r'', Recorder.pause r = .ok r' ∧ r'.pausedLastTick = none ∧
      Recorder.resume r' = .ok r'' ∧
      ∃ r''', Recorder.record r'' t d = .ok r''' := by
  have hnil : (flushSegment r).currentSegment = [] :=
    flushSegment_currentSegment r
  have hnone : (mapKeys (flushSegment r).currentSegment).getLast? = none := by
    rw [hnil]; rfl
  unfold Recorder.pause
  rw [if_neg (by simp [hrec])]
  refine ⟨{ flushSegment r with
            pausedLastTick := (mapKeys (flushSegment r).currentSegment).getLast?,
            state := .Paused },
          { flushSegment r with
            pausedLastTick := (mapKeys (flushSegment r).currentSegment).getLast?,
            state := .Recording }, rfl, hnone, ?_, ?_⟩
  · unfold Recorder.resume
    rw [if_neg (by simp)]
  · exact record_ok _ t d rfl hnone

/-- Witness for `pause_lastTick_undefined`: after pausing with ticks 1
and 2 buffered, recording tick `1` again — at/before the flushed ticks —
succeeds. -/
theorem pause_lastTick_undefined_w :
    ∃ r' r'', Recorder.pause recBuffered = .ok r' ∧ r'.pausedLastTick = none ∧
      Recorder.resume r' = .ok r'' ∧
      ∃ r''', Recorder.record r'' 1 (JsVal.vNum 9) = .ok r''' :=
  pause_lastTick_undefined recBuffered 1 (JsVal.vNum 9) rfl (by decide)

/-! ### C5 — the segment cache never evicts -/

/-- A one-entry segment file holding tick `a` with payload `v`. -/
def segFile (a : Nat) (v : JsVal) : PackedSegment JsVal :=
  encodeSegment { firstTick := a, lastTick := a, data := [(a, v)] }

/-- A replayer over a recording with segments `0` and `5`
(`segmentSize = 1000`, `totalTicks = 6000`), nothing cached yet. -/
def rep5 : RepState :=
  { meta := { createdAt := "", tickRate := 30, segmentSize := 1000,
              totalTicks := 6000, totalDuration := none },
    disk := [(0, segFile 0 (.vNum 1)), (5, segFile 5000 (.vNum 1))],
    loadedSegments := [], currentTick := 0, state := .Idle,
    lastPlayedTickMeta := none, currentSpeed := 1, playStartTime := 0,
    pausedDuration := 0, pauseStartTime := 0 }

/-- `rep5` with segment 0 already cached. -/
def rep5L : RepState :=
  { rep5 with loadedSegments := [(0, [(0, .vNum 1)])] }

/-- **C5 counterexample**: seek to tick 0 and then to tick 5000 — a
segment transition from segment 0 to segment 5.  Afterwards the cache
still holds segment 0, whose distance from the current segment
(`5 − 0 = 5`) exceeds the claimed window of 3: no eviction happened. -/
theorem evict_window_cex :
    mapKeys (seek (seek rep5 0).1 5000).1.loadedSegments = [0, 5]
    ∧ (seek (seek rep5 0).1 5000).1.currentTick / 1000 = 5
    ∧ ¬((5 : Nat) - 0 ≤ 3) := by decide

/-- **C5 corrected**: the replayer has no `evictFarFrom`; the cache only
grows.  Every cached segment survives both `loadSegment` and `seek`,
whatever its distance from the current segment. -/
theorem cache_never_evicts (r : RepState) (i : Nat) (t : Int)
    (p : Nat × List (Nat × JsVal)) (hp : p ∈ r.loadedSegments) :
    (∀ r', loadSegment r i = .ok r' → p ∈ r'.loadedSegments) ∧
    p ∈ (seek r t).1.loadedSegments := by
  constructor
  · intro r' h
    exact (loadSegment_fields r i r' h).2.2.2.2.2.2.2 p hp
  · unfold seek
    split
    · exact hp
    · rename_i r2 hload
      have hmem := (loadSegment_fields _ _ _ hload).2.2.2.2.2.2.2 p hp
      split
      · exact hmem
      · exact hmem

/-- Witness for `cache_never_evicts`: the cached segment 0 survives a
load of segment 5 and a seek to tick 5000. -/
theorem cache_never_evicts_w :
    (∀ r', loadSegment rep5L 5 = .ok r' →
      (0, [(0, JsVal.vNum 1)]) ∈ r'.loadedSegments) ∧
    (0, [(0, JsVal.vNum 1)]) ∈ (seek rep5L 5000).1.loadedSegments :=
  cache_never_evicts rep5L 5 5000 (0, [(0, JsVal.vNum 1)]) (by decide)

/-! ### C10 — falsy payloads read as absent -/

/-- Any `mapGet` hit makes `Map.has`-style `any` true. -/
theorem any_key_of_mapGet_some {T : Type} (m : List (Nat × T)) (k : Nat)
    (v : T) (h : mapGet m k = some v) :
    (m.any fun p => p.1 = k) = true := by
  unfold mapGet at h
  cases hf : m.find? (fun p => p.1 = k) with
  | none => rw [hf] at h; cases h
  | some p =>
    have hmem := List.mem_of_find?_eq_some hf
    have hpk := List.find?_some hf
    exact List.any_eq_true.mpr ⟨p, hmem, hpk⟩

/-- **C10** (confirmed): a stored falsy payload (`0`, `""`, `false`,
`null`) is treated by `getTickData` as absent — `if (!data)` — so during
`Playing` the loop ends with `onEnd` and state `Idle` upon reaching that
tick, and a `seek` to that tick delivers no `onTick`. -/
theorem falsy_payload_treated_absent (r : RepState) (t : Nat)
    (seg : List (Nat × JsVal)) (v : JsVal)
    (hseg : mapGet r.loadedSegments (t / r.meta.segmentSize) = some seg)
    (hv : mapGet seg t = some v) (hfalsy : v.falsy = true)
    (ht : (t : Int) ≤ (r.meta.totalTicks : Int) - 1) :
    getTickData r t = none ∧
    (∀ fuel, runReplay r t (fuel + 1) = ([.endEv], .Idle)) ∧
    (seek r (t : Int)).2.1 = [] := by
  have h1 : getTickData r t = none := by
    unfold getTickData
    simp only [hseg, hv, hfalsy, if_true]
  have hclamp : (max 0 (min (t : Int) ((r.meta.totalTicks : Int) - 1))).toNat = t := by
    omega
  refine ⟨h1, ?_, ?_⟩
  · intro fuel
    unfold runReplay
    rw [h1]
  · have hany : (r.loadedSegments.any fun p =>
        p.1 = t / r.meta.segmentSize) = true :=
      any_key_of_mapGet_some _ _ _ hseg
    have hload : loadSegment
        { r with state := ReplayerState.Idle, currentTick := t }
        (t / r.meta.segmentSize) =
        .ok { r with state := ReplayerState.Idle, currentTick := t } := by
      unfold loadSegment
      rw [if_pos hany]
    have h1' : getTickData
        { r with state := ReplayerState.Idle, currentTick := t } t = none := h1
    unfold seek
    rw [hclamp]
    split
    · rfl
    · rename_i r2 hload2
      rw [hload] at hload2
      injection hload2 with h2
      subst h2
      rw [h1']

/-- A replayer whose cached segment 0 stores the falsy payload `0` at
tick 3. -/
def rep10 : RepState :=
  { meta := { createdAt := "", tickRate := 30, segmentSize := 1000,
              totalTicks := 100, totalDuration := none },
    disk := [(0, encodeSegment { firstTick := 3, lastTick := 3,
                                 data := [(3, .vNum 0)] })],
    loadedSegments := [(0, [(3, .vNum 0)])], currentTick := 3,
    state := .Playing, lastPlayedTickMeta := none, currentSpeed := 1,
    playStartTime := 0, pausedDuration := 0, pauseStartTime := 0 }

/-- Witness for `falsy_payload_treated_absent` at the payload `0`. -/
theorem falsy_payload_treated_absent_w :
    getTickData rep10 3 = none ∧
    (∀ fuel, runReplay rep10 3 (fuel + 1) = ([.endEv], .Idle)) ∧
    (seek rep10 (3 : Int)).2.1 = [] :=
  falsy_payload_treated_absent rep10 3 [(3, .vNum 0)] (.vNum 0)
    (by decide) (by decide) (by decide) (by decide)

/-! ### C4 — pause compensation in the replayer clock -/

/-- A replayer over a one-segment recording with a truthy payload at
tick 0, nothing cached. -/
def rep4 : RepState :=
  { meta := { createdAt := "", tickRate := 30, segmentSize := 1000,
              totalTicks := 100, totalDuration := none },
    disk := [(0, segFile 0 (.vNum 1))], loadedSegments := [],
    currentTick := 0, state := .Idle, lastPlayedTickMeta := none,
    currentSpeed := 1, playStartTime := 0, pausedDuration := 0,
    pauseStartTime := 0 }

/-- **C4 counterexample**: `play` at time 0, `pause` at 10, `resume` at
20.  The interval spent `Paused` is `20 − 10 = 10 ≠ 0`, but the code's
`pausedDuration` after the resume is `0`: `resume()` folds the interval
in and then calls `play()`, which resets `pausedDuration := 0` —
previously accumulated pause compensation is discarded. -/
theorem pause_compensation_cex :
    ((play rep4 0).bind (fun r1 => (Replayer.pause r1 10).bind
        (fun r2 => Replayer.resume r2 20))).map
      (fun r => r.pausedDuration) = .ok 0
    ∧ (20 : Rat) - 10 = 10 ∧ (10 : Rat) ≠ 0 :=
  ⟨by decide, by norm_num, by norm_num⟩

/-- **C4 corrected**: after any successful `resume` at wall time `now`,
`pausedDuration` is `0` and `playStartTime = now` (the `play()` reset),
so the clock model is `expectedTick() = ⌊(monotonicNow() − now) ×
tickRate × speed / 1000⌋`: pause compensation does not survive a
resume. -/
theorem resume_discards_compensation (r : RepState) (now now2 : Rat)
    (r' : RepState) (hp : r.state = .Paused)
    (h : Replayer.resume r now = .ok r') :
    r'.pausedDuration = 0 ∧ r'.playStartTime = now ∧ r'.state = .Playing ∧
    getExpectedTick r' now2 =
      ⌊(now2 - now) * (r.meta.tickRate : Rat) * r.currentSpeed / 1000⌋ := by
  unfold Replayer.resume at h
  rw [if_neg (by simp [hp])] at h
  unfold play at h
  rw [if_neg (by simp [hp])] at h
  obtain ⟨-, hmeta, hstate, hspeed, hstart, hpd, -, -⟩ :=
    loadSegment_fields _ _ _ h
  refine ⟨hpd, hstart, hstate, ?_⟩
  unfold getExpectedTick
  rw [if_neg (by simp [hstate])]
  rw [hstart, hpd, hmeta, hspeed]
  norm_num

/-- `rep4` paused at `pauseStartTime = 10` with prior compensation `5`
and segment 0 cached. -/
def repPausedW : RepState :=
  { rep4 with state := .Paused, pauseStartTime := 10, pausedDuration := 5,
              loadedSegments := [(0, [(0, .vNum 1)])] }

/-- The state the code reaches when `repPausedW` resumes at time 20. -/
def repResumedW : RepState :=
  { repPausedW with state := .Playing, playStartTime := 20,
                    pausedDuration := 0 }

/-- Witness for `resume_discards_compensation` at time 20. -/
theorem resume_discards_compensation_w :
    repResumedW.pausedDuration = 0 ∧ repResumedW.playStartTime = 20 ∧
    repResumedW.state = .Playing ∧
    getExpectedTick repResumedW 30 =
      ⌊((30 : Rat) - 20) * (repPausedW.meta.tickRate : Rat) *
        repPausedW.currentSpeed / 1000⌋ :=
  resume_discards_compensation repPausedW 20 30 repResumedW rfl (by decide)

/-! ### C8 — end detection -/

/-- A segment file with the two consecutive ticks `a`, `a+1`, truthy
payloads. -/
def segPair (a : Nat) : PackedSegment JsVal :=
  encodeSegment { firstTick := a, lastTick := a + 1,
                  data := [(a, .vNum 7), (a + 1, .vNum 7)] }

/-- A 4-tick recording split across segment files 0 and 1
(`segmentSize = 2`), nothing cached. -/
def rep8 : RepState :=
  { meta := { createdAt := "", tickRate := 30, segmentSize := 2,
              totalTicks := 4, totalDuration := none },
    disk := [(0, segPair 0), (1, segPair 2)], loadedSegments := [],
    currentTick := 0, state := .Idle, lastPlayedTickMeta := none,
    currentSpeed := 1, playStartTime := 0, pausedDuration := 0,
    pauseStartTime := 0 }

/-- **C8 counterexample**: replaying the 4-tick recording from tick 0
ends (`onEnd`, state `Idle`) after ticks 0 and 1 — upon reaching tick
2 — even though tick 2's payload is present and truthy in the recording
on disk.  `play` loads only the initial segment and the loop consults
the in-memory cache, so crossing into an unloaded segment terminates
replay; `onEnd` does not fire "exactly when the payload is absent from
the recording". -/
theorem end_detection_cex :
    playAndRun rep8 0 10 = .ok ([.tickEv 0, .tickEv 1, .endEv], .Idle)
    ∧ recordingHasTick rep8.disk 2 2 = true := by decide

/-- The 100-tick single-segment recording of the claim's scenario. -/
def seg100 : PackedSegment JsVal :=
  encodeSegment { firstTick := 0, lastTick := 99,
                  data := (List.range 100).map (fun i => (i, .vNum 7)) }

/-- A replayer over the 100-tick recording, nothing cached. -/
def rep100 : RepState :=
  { meta := { createdAt := "", tickRate := 30, segmentSize := 1000,
              totalTicks := 100, totalDuration := none },
    disk := [(0, seg100)], loadedSegments := [], currentTick := 0,
    state := .Idle, lastPlayedTickMeta := none, currentSpeed := 1,
    playStartTime := 0, pausedDuration := 0, pauseStartTime := 0 }

/-- **C8 corrected**: the loop ends (`onEnd`, state `Idle`) exactly when
`getTickData(currentTick)` is `null` — the segment containing the tick
is missing from the in-memory cache (even if its file exists on disk),
or the tick is missing from the cached segment, or its payload is
falsy.  For the claim's scenario — 100 consecutive truthy ticks within
a single segment, replayed from tick 0 — `onTick` fires for ticks 0…99
and then `onEnd` fires with the state becoming `Idle`. -/
theorem end_detection (r : RepState) (t fuel : Nat) :
    ((runReplay r t (fuel + 1)).1.head? = some .endEv ↔
      getTickData r t = none)
    ∧ playAndRun rep100 0 101 =
        .ok ((List.range 100).map .tickEv ++ [.endEv], .Idle) := by
  constructor
  · cases h : getTickData r t with
    | none => unfold runReplay; rw [h]; simp
    | some p => unfold runReplay; rw [h]; simp
  · decide

/-! ### C3 — which ticks land in which segment file -/

/-- **C3 counterexample**: with `segmentSize = 1000`, recording only the
tick `5000` and stopping produces `segment_0.dat` whose single key is
`5000` — not inside `[0·1000, 1·1000)`; and the replayer's lookup of
tick `5000` in segment `⌊5000/1000⌋ = 5` finds no such file. -/
theorem segment_interval_cex :
    ((Recorder.record recRecording 5000 (.vNum 1)).bind Recorder.stop).map
        (fun p => (p.2.files.map (fun f => (f.1, mapKeys f.2.data)),
                   (mapGet p.2.files (5000 / 1000)).isSome))
      = .ok ([(0, [5000])], false)
    ∧ ¬(5000 < (0 + 1) * 1000) := by decide

/-- A recorder in the state `Recorder.start` leaves it in. -/
def freshRec (T : Type) (s tickR : Nat) (h : ReplayMeta) : RecState T :=
  { segmentSize := s, tickRate := tickR, state := .Recording,
    currentSegment := [], segmentIndex := 0, pausedLastTick := none,
    files := [], header := some h }

/-- `record` of ticks `0, 1, …, n−1` in order, tick `i` carrying
`dataF i`. -/
def recordTicks {T : Type} (r : RecState T) (dataF : Nat → T) :
    Nat → Except String (RecState T)
  | 0 => .ok r
  | n + 1 => (recordTicks r dataF n).bind
      (fun r' => Recorder.record r' n (dataF n))

/-- The buffer (or file) contents for the consecutive ticks
`a, …, a + len − 1`. -/
def consecSeg {T : Type} (dataF : Nat → T) (a len : Nat) : List (Nat × T) :=
  (List.range' a len).map (fun t => (t, dataF t))

theorem except_bind_ok {e a b : Type} (x : a) (f : a → Except e b) :
    (Except.ok (ε := e) x).bind f = f x := rfl

theorem consecSeg_snoc {T : Type} (dataF : Nat → T) (a len : Nat) :
    consecSeg dataF a (len + 1) =
      consecSeg dataF a len ++ [(a + len, dataF (a + len))] := by
  unfold consecSeg
  rw [List.range'_1_concat, List.map_append]
  rfl

theorem mapKeys_consecSeg {T : Type} (dataF : Nat → T) (a len : Nat) :
    mapKeys (consecSeg dataF a len) = List.range' a len := by
  unfold mapKeys consecSeg
  rw [List.map_map]
  exact List.map_id _

theorem mapSize_consecSeg {T : Type} (dataF : Nat → T) (a len : Nat) :
    mapSize (consecSeg dataF a len) = len := by
  unfold mapSize consecSeg
  rw [List.length_map, List.length_range']

theorem mapGet_consecSeg {T : Type} (dataF : Nat → T) (a len t : Nat) :
    mapGet (consecSeg dataF a len) t =
      if a ≤ t ∧ t < a + len then some (dataF t) else none := by
  induction len generalizing a with
  | zero =>
    rw [if_neg (by omega)]
    rfl
  | succ len ih =>
    rw [show consecSeg dataF a (len + 1) =
          (a, dataF a) :: consecSeg dataF (a + 1) len by
        unfold consecSeg; rw [List.range'_succ]; rfl]
    rw [mapGet_cons]
    by_cases hat : a = t
    · subst hat
      rw [if_pos rfl, if_pos (by omega)]
    · rw [if_neg hat, ih]
      by_cases h1 : a + 1 ≤ t ∧ t < a + 1 + len
      · rw [if_pos h1, if_pos (by omega)]
      · rw [if_neg h1, if_neg (by omega)]

theorem any_consec_out {T : Type} (dataF : Nat → T) (a len k : Nat)
    (hk : a + len ≤ k) :
    ((consecSeg dataF a len).any fun p => p.1 = k) = false := by
  rw [List.any_eq_false]
  intro p hp
  unfold consecSeg at hp
  obtain ⟨t, ht, rfl⟩ := List.mem_map.mp hp
  have hb := List.mem_range'_1.mp ht
  simp only [decide_eq_true_eq]
  omega

theorem mapSet_consec_fresh {T : Type} (dataF : Nat → T) (a len k : Nat)
    (hk : k = a + len) :
    mapSet (consecSeg dataF a len) k (dataF k) =
      consecSeg dataF a (len + 1) := by
  subst hk
  unfold mapSet
  rw [if_neg (by rw [any_consec_out dataF a len (a + len) (Nat.le_refl _)]; simp)]
  exact (consecSeg_snoc dataF a len).symm

theorem sorted_keys_consec {T : Type} (dataF : Nat → T) (a len : Nat) :
    (mapKeys (consecSeg dataF a len)).insertionSort (· ≤ ·) =
      List.range' a len := by
  rw [mapKeys_consecSeg]
  exact List.Sorted.insertionSort_eq (List.pairwise_le_range' a len)

theorem toObject_consec {T : Type} (dataF : Nat → T) (a len : Nat) :
    toObject (consecSeg dataF a len) = consecSeg dataF a len := by
  apply List.Sorted.insertionSort_eq
  unfold consecSeg
  exact List.pairwise_map.mpr (List.pairwise_le_range' a len)

theorem flushSegment_empty {T : Type} (r : RecState T)
    (h : r.currentSegment = []) : flushSegment r = r := by
  unfold flushSegment
  rw [h]
  rfl

/-- `flushSegment` on a buffer of consecutive ticks `a, …, a + len`:
the file gets `firstTick = a`, `lastTick = a + len` and exactly those
entries. -/
theorem flushSegment_consec {T : Type} (r : RecState T) (dataF : Nat → T)
    (a len : Nat) (hcs : r.currentSegment = consecSeg dataF a (len + 1)) :
    flushSegment r = { r with
      files := r.files ++ [(r.segmentIndex,
        { firstTick := a, lastTick := a + len,
          data := consecSeg dataF a (len + 1) })],
      currentSegment := [], segmentIndex := r.segmentIndex + 1 } := by
  have hlast : (a :: List.range' (a + 1) len).getLastD a = a + len := by
    rw [show a :: List.range' (a + 1) len = List.range' a len ++ [a + len] by
        rw [← List.range'_1_concat, List.range'_succ]]
    exact List.getLastD_concat _ _ _
  unfold flushSegment
  rw [hcs, sorted_keys_consec, List.range'_succ]
  simp only [toObject_consec, hlast]

theorem div_bounds (t s : Nat) (hs : 0 < s) :
    s * (t / s) ≤ t ∧ t < s * (t / s) + s := by
  have h1 := Nat.div_add_mod t s
  have h2 := Nat.mod_lt t hs
  revert h1 h2
  generalize s * (t / s) = A
  generalize t % s = B
  intro h1 h2
  omega

theorem tick_step_flush (m s : Nat) (hs : 0 < s) (heq : m % s + 1 = s) :
    (m + 1) / s = m / s + 1 ∧ (m + 1) % s = 0 := by
  have hdvd : m + 1 = s * (m / s + 1) := by
    have hdm := Nat.div_add_mod m s
    calc m + 1 = s * (m / s) + m % s + 1 := by rw [hdm]
      _ = s * (m / s) + (m % s + 1) := by rw [Nat.add_assoc]
      _ = s * (m / s) + s := by rw [heq]
      _ = s * (m / s + 1) := (Nat.mul_succ s (m / s)).symm
  constructor
  · rw [hdvd, Nat.mul_div_cancel_left _ hs]
  · rw [hdvd]
    exact Nat.mul_mod_right s _

theorem tick_step_no_flush (m s : Nat) (hlt : m % s + 1 < s) :
    (m + 1) / s = m / s ∧ (m + 1) % s = m % s + 1 := by
  have hone : 1 < s :=
    Nat.lt_of_le_of_lt (Nat.succ_le_succ (Nat.zero_le (m % s))) hlt
  have h1 : (m + 1) % s = m % s + 1 := by
    have h2 := Nat.add_mod m 1 s
    rw [Nat.mod_eq_of_lt hone] at h2
    rw [h2, Nat.mod_eq_of_lt hlt]
  refine ⟨?_, h1⟩
  have hnd : ¬ s ∣ (m + 1) := by
    intro hdvd
    have h0 := Nat.mod_eq_zero_of_dvd hdvd
    rw [h1] at h0
    exact Nat.succ_ne_zero _ h0
  rw [Nat.succ_div_of_not_dvd hnd]

/-- One `record` call of the next consecutive tick `m`, buffer not yet
full: the entry is appended to the pending buffer, nothing else moves. -/
theorem record_step_no_flush {T : Type} (dataF : Nat → T) (s tickR : Nat)
    (hm : ReplayMeta) (m : Nat) (hlt : m % s + 1 < s)
    (q : Nat) (F : List (Nat × SegmentData T)) :
    Recorder.record
      { segmentSize := s, tickRate := tickR, state := .Recording,
        currentSegment := consecSeg dataF (s * (m / s)) (m % s),
        segmentIndex := q, pausedLastTick := none, files := F,
        header := some hm } m (dataF m) =
    .ok { segmentSize := s, tickRate := tickR, state := .Recording,
          currentSegment := consecSeg dataF (s * (m / s)) (m % s + 1),
          segmentIndex := q, pausedLastTick := none, files := F,
          header := some hm } := by
  have hm' : m = s * (m / s) + m % s := (Nat.div_add_mod m s).symm
  have hset := mapSet_consec_fresh dataF (s * (m / s)) (m % s) m hm'
  unfold Recorder.record
  simp only [hset, mapSize_consecSeg]
  rw [if_neg (by simp), if_neg (by simp [invalidSeq]),
      if_neg (Nat.not_le.mpr hlt)]

/-- One `record` call of the next consecutive tick `m`, buffer reaching
`segmentSize`: the buffer is flushed as segment file `q`. -/
theorem record_step_flush {T : Type} (dataF : Nat → T) (s tickR : Nat)
    (hm : ReplayMeta) (m : Nat) (heq : m % s + 1 = s)
    (q : Nat) (F : List (Nat × SegmentData T)) :
    Recorder.record
      { segmentSize := s, tickRate := tickR, state := .Recording,
        currentSegment := consecSeg dataF (s * (m / s)) (m % s),
        segmentIndex := q, pausedLastTick := none, files := F,
        header := some hm } m (dataF m) =
    .ok { segmentSize := s, tickRate := tickR, state := .Recording,
          currentSegment := [], segmentIndex := q + 1,
          pausedLastTick := none,
          files := F ++ [(q, { firstTick := s * (m / s),
                               lastTick := s * (m / s) + (s - 1),
                               data := consecSeg dataF (s * (m / s)) s })],
          header := some hm } := by
  have hm' : m = s * (m / s) + m % s := (Nat.div_add_mod m s).symm
  have hset := mapSet_consec_fresh dataF (s * (m / s)) (m % s) m hm'
  have hms : m % s = s - 1 := Nat.eq_sub_of_add_eq heq
  unfold Recorder.record
  simp only [hset, mapSize_consecSeg]
  rw [if_neg (by simp), if_neg (by simp [invalidSeq]),
      if_pos (Nat.le_of_eq heq.symm)]
  rw [flushSegment_consec _ dataF (s * (m / s)) (m % s) rfl]
  rw [heq, hms]

/-- The invariant of consecutive recording: after `m` calls the pending
buffer holds ticks `s·(m/s), …, m−1` and the files are the `m/s` full
segments. -/
theorem recordTicks_eq {T : Type} (dataF : Nat → T) (s tickR : Nat)
    (hm : ReplayMeta) (hs : 0 < s) (m : Nat) :
    recordTicks (freshRec T s tickR hm) dataF m =
      .ok { freshRec T s tickR hm with
            currentSegment := consecSeg dataF (s * (m / s)) (m % s),
            segmentIndex := m / s,
            files := (List.range (m / s)).map
              (fun k => (k, { firstTick := s * k,
                              lastTick := s * k + (s - 1),
                              data := consecSeg dataF (s * k) s })) } := by
  induction m with
  | zero =>
    simp only [recordTicks, Nat.zero_div, Nat.zero_mod, Nat.mul_zero,
      List.range_zero, List.map_nil]
    rfl
  | succ m ih =>
    have hbind : recordTicks (freshRec T s tickR hm) dataF (m + 1) =
        (recordTicks (freshRec T s tickR hm) dataF m).bind
          (fun r' => Recorder.record r' m (dataF m)) := rfl
    rcases Nat.lt_or_ge (m % s + 1) s with hlt | hge
    · obtain ⟨hdiv, hmod⟩ := tick_step_no_flush m s hlt
      rw [hbind, ih, except_bind_ok, hdiv, hmod]
      exact record_step_no_flush dataF s tickR hm m hlt _ _
    · have heq : m % s + 1 = s :=
        Nat.le_antisymm (Nat.succ_le_of_lt (Nat.mod_lt m hs)) hge
      obtain ⟨hdiv, hmod⟩ := tick_step_flush m s hs heq
      rw [hbind, ih, except_bind_ok, hdiv, hmod, List.range_succ,
        List.map_append]
      exact record_step_flush dataF s tickR hm m heq _ _

theorem mapGet_rangeMap {T : Type} (g : Nat → T) (q j : Nat) :
    mapGet ((List.range q).map (fun k => (k, g k))) j =
      if j < q then some (g j) else none := by
  induction q with
  | zero =>
    rw [if_neg (by omega)]
    rfl
  | succ q ih =>
    rw [List.range_succ, List.map_append, mapGet_append, ih]
    by_cases h : j < q
    · rw [if_pos h, if_pos (by omega)]
    · rw [if_neg h]
      simp only [List.map_cons, List.map_nil]
      rw [mapGet_cons]
      by_cases h2 : q = j
      · subst h2
        rw [if_pos rfl, if_pos (by omega)]
      · rw [if_neg h2, if_neg (by omega)]
        rfl

theorem mapGet_append_left {T : Type} (m1 m2 : List (Nat × T)) (j : Nat)
    (v : T) (h : mapGet m1 j = some v) : mapGet (m1 ++ m2) j = some v := by
  rw [mapGet_append, h]

theorem mapGet_snoc_fresh {T : Type} (m : List (Nat × T)) (k : Nat) (v : T)
    (h : mapGet m k = none) : mapGet (m ++ [(k, v)]) k = some v := by
  rw [mapGet_append, h]
  show mapGet [(k, v)] k = some v
  rw [mapGet_cons, if_pos rfl]

theorem div_lt_div_of_lt (t n s : Nat) (hs : 0 < s) (hmod : n % s = 0)
    (ht : t < n) : t / s < n / s := by
  have h1 := (div_bounds t s hs).1
  have hn := Nat.div_add_mod n s
  by_contra hge'
  push_neg at hge'
  have h2 : s * (n / s) ≤ s * (t / s) := Nat.mul_le_mul_left s hge'
  revert h1 hn h2
  generalize s * (t / s) = A
  generalize s * (n / s) = B
  intro h1 hn h2
  omega

/-- **C3 corrected**: the tick-interval invariant does not hold for
arbitrary caller-supplied ticks (the file index counts flushes, not tick
ranges), but it does hold for the consecutive-from-0 recording pattern:
after recording ticks `0…n−1` in order and stopping, every key of
segment file `k` lies in `[k·segmentSize, (k+1)·segmentSize)`, and every
recorded tick `t` is found by looking up file `⌊t/segmentSize⌋` — the
replayer's lookup rule. -/
theorem segment_file_keys {T : Type} (dataF : Nat → T) (s tickR n : Nat)
    (hm : ReplayMeta) (hs : 0 < s) :
    ∃ rn meta r',
      recordTicks (freshRec T s tickR hm) dataF n = .ok rn ∧
      Recorder.stop rn = .ok (meta, r') ∧
      (∀ p ∈ r'.files, ∀ key ∈ mapKeys p.2.data,
        p.1 * s ≤ key ∧ key < (p.1 + 1) * s) ∧
      (∀ t, t < n → ∃ seg, mapGet r'.files (t / s) = some seg ∧
        mapGet seg.data t = some (dataF t)) := by
  have hrec := recordTicks_eq dataF s tickR hm hs n
  have hn := Nat.div_add_mod n s
  have hms := Nat.mod_lt n hs
  rcases Nat.eq_zero_or_pos (n % s) with hmod | hpos
  · -- the last record flushed: the pending buffer is empty at stop
    rw [hmod] at hrec
    refine ⟨_, { hm with totalTicks := n / s * s },
            { segmentSize := s, tickRate := tickR, state := .Idle,
              currentSegment := [], segmentIndex := n / s,
              pausedLastTick := none,
              files := (List.range (n / s)).map
                (fun k => (k, { firstTick := s * k,
                                lastTick := s * k + (s - 1),
                                data := consecSeg dataF (s * k) s })),
              header := some { hm with totalTicks := n / s * s } },
            hrec, rfl, ?_, ?_⟩
    · intro p hp key hkey
      obtain ⟨k, hk, rfl⟩ := List.mem_map.mp hp
      simp only [mapKeys_consecSeg, List.mem_range'_1] at hkey
      refine ⟨by rw [Nat.mul_comm]; exact hkey.1, ?_⟩
      rw [Nat.mul_comm, Nat.mul_succ]
      exact hkey.2
    · intro t ht
      have hts : t / s < n / s := div_lt_div_of_lt t n s hs hmod ht
      refine ⟨{ firstTick := s * (t / s), lastTick := s * (t / s) + (s - 1),
                data := consecSeg dataF (s * (t / s)) s }, ?_, ?_⟩
      · have h1 : mapGet ((List.range (n / s)).map
            (fun k => (k, ({ firstTick := s * k, lastTick := s * k + (s - 1),
                             data := consecSeg dataF (s * k) s } :
                SegmentData T)))) (t / s)
            = some { firstTick := s * (t / s),
                     lastTick := s * (t / s) + (s - 1),
                     data := consecSeg dataF (s * (t / s)) s } := by
          rw [mapGet_rangeMap, if_pos hts]
        exact h1
      · show mapGet (consecSeg dataF (s * (t / s)) s) t = some (dataF t)
        rw [mapGet_consecSeg, if_pos (div_bounds t s hs)]
  · -- a non-empty pending buffer is flushed by stop as a partial file
    have hsplit : n % s = (n % s - 1) + 1 := by omega
    have hfl : flushSegment
        { freshRec T s tickR hm with
          currentSegment := consecSeg dataF (s * (n / s)) (n % s),
          segmentIndex := n / s,
          files := (List.range (n / s)).map
            (fun k => (k, { firstTick := s * k,
                            lastTick := s * k + (s - 1),
                            data := consecSeg dataF (s * k) s })) } =
        { freshRec T s tickR hm with
          currentSegment := [], segmentIndex := n / s + 1,
          files := (List.range (n / s)).map
            (fun k => (k, { firstTick := s * k,
                            lastTick := s * k + (s - 1),
                            data := consecSeg dataF (s * k) s }))
            ++ [(n / s, { firstTick := s * (n / s),
                          lastTick := s * (n / s) + (n % s - 1),
                          data := consecSeg dataF (s * (n / s))
                            ((n % s - 1) + 1) })] } := by
      rw [flushSegment_consec _ dataF (s * (n / s)) (n % s - 1)
          (by rw [← hsplit])]
    refine ⟨_, { hm with totalTicks := (n / s + 1) * s },
            { segmentSize := s, tickRate := tickR, state := .Idle,
              currentSegment := [], segmentIndex := n / s + 1,
              pausedLastTick := none,
              files := (List.range (n / s)).map
                (fun k => (k, { firstTick := s * k,
                                lastTick := s * k + (s - 1),
                                data := consecSeg dataF (s * k) s }))
                ++ [(n / s, { firstTick := s * (n / s),
                              lastTick := s * (n / s) + (n % s - 1),
                              data := consecSeg dataF (s * (n / s))
                                ((n % s - 1) + 1) })],
              header := some { hm with totalTicks := (n / s + 1) * s } },
            hrec, ?_, ?_, ?_⟩
    · unfold Recorder.stop
      rw [if_neg (by simp [freshRec]), hfl]
      rfl
    · intro p hp key hkey
      rcases List.mem_append.mp hp with hp1 | hp2
      · obtain ⟨k, hk, rfl⟩ := List.mem_map.mp hp1
        simp only [mapKeys_consecSeg, List.mem_range'_1] at hkey
        refine ⟨by rw [Nat.mul_comm]; exact hkey.1, ?_⟩
        rw [Nat.mul_comm, Nat.mul_succ]
        exact hkey.2
      · rcases List.mem_singleton.mp hp2 with rfl
        simp only [mapKeys_consecSeg, List.mem_range'_1] at hkey
        refine ⟨by rw [Nat.mul_comm]; exact hkey.1, ?_⟩
        rw [Nat.mul_comm, Nat.mul_succ]
        show key < s * (n / s) + s
        have h2 : key < s * (n / s) + ((n % s - 1) + 1) := hkey.2
        revert h2
        generalize s * (n / s) = A
        intro h2
        omega
    · intro t ht
      have htle : t / s ≤ n / s := Nat.div_le_div_right (Nat.le_of_lt ht)
      rcases Nat.lt_or_ge (t / s) (n / s) with hts | hge2
      · refine ⟨{ firstTick := s * (t / s), lastTick := s * (t / s) + (s - 1),
                  data := consecSeg dataF (s * (t / s)) s }, ?_, ?_⟩
        · exact mapGet_append_left _ _ _ _
            (by rw [mapGet_rangeMap, if_pos hts])
        · show mapGet (consecSeg dataF (s * (t / s)) s) t = some (dataF t)
          rw [mapGet_consecSeg, if_pos (div_bounds t s hs)]
      · have hteq : t / s = n / s := Nat.le_antisymm htle hge2
        refine ⟨{ firstTick := s * (n / s),
                  lastTick := s * (n / s) + (n % s - 1),
                  data := consecSeg dataF (s * (n / s)) ((n % s - 1) + 1) },
                ?_, ?_⟩
        · rw [hteq]
          exact mapGet_snoc_fresh _ _ _
            (by rw [mapGet_rangeMap, if_neg (Nat.lt_irrefl _)])
        · show mapGet (consecSeg dataF (s * (n / s)) ((n % s - 1) + 1)) t
            = some (dataF t)
          rw [mapGet_consecSeg]
          have hb := (div_bounds t s hs).1
          rw [hteq] at hb
          rw [if_pos ?_]
          refine ⟨hb, ?_⟩
          rw [← hsplit]
          revert hb hn
          generalize s * (n / s) = A
          intro hb hn
          omega

/-- Witness for `segment_file_keys`: three ticks, `segmentSize = 2`
(one full file and one partial file). -/
theorem segment_file_keys_w :
    ∃ rn meta r',
      recordTicks (freshRec JsVal 2 30 hdr0) (fun _ => .vNum 7) 3
        = .ok rn ∧
      Recorder.stop rn = .ok (meta, r') ∧
      (∀ p ∈ r'.files, ∀ key ∈ mapKeys p.2.data,
        p.1 * 2 ≤ key ∧ key < (p.1 + 1) * 2) ∧
      (∀ t, t < 3 → ∃ seg, mapGet r'.files (t / 2) = some seg ∧
        mapGet seg.data t = some (JsVal.vNum 7)) := by
  exact segment_file_keys (fun _ => JsVal.vNum 7) 2 30 3 hdr0 (by decide)

end Replay
